import Mathlib

/-! Verification of the smu static-map registry service against its
specification. The definitions below are a shallow embedding of
src/main.rs: the `SMap` record, the `SMapError` enum, the in-memory
store, the `list_smaps` handler, and the `upload_smap_multipart`
handler with its field loop, unwrap panics and `/tmp` file writes,
together with a model of `Uuid::new_v4().to_string()` and of the
`DefaultBodyLimit` middleware layering in `main`. -/

namespace Smu

/-- Raw bytes of a multipart field payload. -/
abbrev Bytes := List Nat

/-- Registered static-map record, code struct `SMap` with fields
`uuid`, `title`, `path` (src/main.rs 92-97). -/
structure SMap where
  uuid : String
  title : String
  path : String
  deriving DecidableEq, Repr

/-- Static maps operation errors, code enum `SMapError`
(src/main.rs 106-117): the three variants the code declares. -/
inductive SMapError where
  | Conflict (msg : String)
  | NotFound (msg : String)
  | Unauthorized (msg : String)
  deriving DecidableEq, Repr

/-- In-memory static map store (src/main.rs 81): `Mutex<Vec<SMap>>`,
modelled as the list of records it guards. -/
abbrev Store := List SMap

/-- GET /smap handler `list_smaps` (src/main.rs 129-132): lock the
store and return a clone of the vector. -/
def list_smaps (store : Store) : List SMap := store

/-- One parsed multipart field as the axum extractor presents it to the
loop: its optional field name, its optional attached file name, the
text decoding of its content (`field.text()`) and its raw bytes
(`field.bytes()`). -/
structure Field where
  name : Option String
  fileName : Option String
  text : String
  data : Bytes
  deriving DecidableEq, Repr

/-- A request-task panic: `.unwrap()` called on `None`. -/
inductive Panic where
  | unwrapNone
  deriving DecidableEq, Repr

/-- Mutable state of the field loop in `upload_smap_multipart`: the
candidate `title` and `path` options plus the sequence of completed
filesystem writes (path, bytes) performed by `File::create` and
`write_all`, in order. -/
structure IngestState where
  title : Option String
  path : Option String
  writes : List (String × Bytes)
  deriving DecidableEq, Repr

/-- One iteration of the field loop (src/main.rs 148-166):
`field.name().unwrap()`; a field named `title` stores its text as the
candidate title; any other field has `field.file_name().unwrap()`
taken, its bytes written to `/tmp/<file_name>`, and that path stored
as the candidate path. An unwrap of `None` panics the request task. -/
def processField (st : IngestState) (f : Field) : Except Panic IngestState :=
  match f.name with
  | none => .error .unwrapNone
  | some n =>
    if n = "title" then
      .ok { st with title := some f.text }
    else
      match f.fileName with
      | none => .error .unwrapNone
      | some fn =>
        let file_path := "/tmp/" ++ fn
        .ok { st with path := some file_path,
                      writes := st.writes ++ [(file_path, f.data)] }

/-- The `while let Some(field) = multipart.next_field()` loop over the
whole multipart body, threading the loop state. -/
def processFields (fields : List Field) (st : IngestState) : Except Panic IngestState :=
  match fields with
  | [] => .ok st
  | f :: rest =>
    match processField st f with
    | .error p => .error p
    | .ok st1 => processFields rest st1

/-- POST /upload handler `upload_smap_multipart` (src/main.rs 142-172).
The `uuid` argument is `Uuid::new_v4().to_string()`, drawn at line 146
before the loop runs. After the loop, `title.unwrap()` and
`path.unwrap()` panic when either is missing; otherwise the created
record and the list of blob writes made are returned with status 201.
The handler declares no `State` extractor, so it never sees the store. -/
def upload_smap_multipart (uuid : String) (fields : List Field) :
    Except Panic (SMap × List (String × Bytes)) :=
  match processFields fields { title := none, path := none, writes := [] } with
  | .error p => .error p
  | .ok st =>
    match st.title with
    | none => .error .unwrapNone
    | some t =>
      match st.path with
      | none => .error .unwrapNone
      | some p => .ok ({ uuid := uuid, title := t, path := p }, st.writes)

/-- A full upload request against the shared server state: the router
shares the store, but the handler takes only the multipart body, so
the store passes through unchanged. -/
def handleUpload (store : Store) (uuid : String) (fields : List Field) :
    Store × Except Panic (SMap × List (String × Bytes)) :=
  (store, upload_smap_multipart uuid fields)

/-- Lowercase hexadecimal digit character for a nibble value. -/
def hexChar (d : Nat) : Char :=
  if d < 10 then Char.ofNat (48 + d) else Char.ofNat (87 + d)

/-- The 32 hexadecimal nibbles of a 128-bit value, most significant
nibble first. -/
def toNibbles (r : Nat) : List Nat :=
  (List.range 32).map (fun i => r / 16 ^ (31 - i) % 16)

/-- Modelled from the uuid crate: `Uuid::new_v4` takes a 128-bit random
value and fixes the version nibble (nibble 12) to `4` and the top two
bits of nibble 16 to `10`, so that nibble becomes `8 + (old mod 4)`;
the other 122 bits are kept. -/
def uuidV4Nibbles (r : Nat) : List Nat :=
  ((toNibbles r).set 12 4).set 16 (8 + (toNibbles r).getD 16 0 % 4)

/-- Hyphenation 8-4-4-4-12 of the 32 hex characters, the RFC 4122 text
form that `Uuid::to_string` produces. -/
def hyphenate (cs : List Char) : List Char :=
  cs.take 8 ++ '-' :: ((cs.drop 8).take 4 ++ '-' ::
    (((cs.drop 8).drop 4).take 4 ++ '-' ::
      ((((cs.drop 8).drop 4).drop 4).take 4 ++ '-' ::
        (((cs.drop 8).drop 4).drop 4).drop 4)))

/-- Render a nibble list as the hyphenated lowercase-hex UUID string. -/
def uuidRender (nibs : List Nat) : String :=
  String.mk (hyphenate (nibs.map hexChar))

/-- The value of `Uuid::new_v4().to_string()` (src/main.rs 146) for the
128-bit random draw `r`. -/
def newV4String (r : Nat) : String := uuidRender (uuidV4Nibbles r)

/-- The kind of a `DefaultBodyLimit` layer (axum): either `disable()`
or `max(bytes)`. -/
inductive DefaultBodyLimitKind where
  | disable
  | limit (bytes : Nat)
  deriving DecidableEq, Repr

/-- The `DefaultBodyLimit` layers `main` adds, in the order of the
`.layer` calls (src/main.rs 55-56): first `disable()`, then
`max(1024)`. -/
def bodyLimitLayers : List DefaultBodyLimitKind :=
  [.disable, .limit 1024]

/-- A request's `DefaultBodyLimit` extension after it has passed the
middleware stack. Layers added later with `.layer` are outermost and
run first; each `DefaultBodyLimit` service inserts its kind into the
request extensions, overwriting any earlier insertion, so the kind the
body extractor finally reads is the first-added (innermost) layer's. -/
def requestLimitExtension (layers : List DefaultBodyLimitKind) :
    Option DefaultBodyLimitKind :=
  layers.reverse.foldl (fun _ k => some k) none

/-- axum's default body limit in bytes, applied when no extension is
present. -/
def axumDefaultLimit : Nat := 2 * 1024 * 1024

/-- Whether the body extractor accepts a request body of `len` bytes
under the `DefaultBodyLimit` extension `ext`. -/
def bodyAccepted (ext : Option DefaultBodyLimitKind) (len : Nat) : Bool :=
  match ext with
  | some .disable => true
  | some (.limit n) => decide (len ≤ n)
  | none => decide (len ≤ axumDefaultLimit)

/-- Title field of the spec's scenario: name `title`, text
`Flood Risk Map`, no attached file name. -/
def exTitleField : Field :=
  { name := some "title", fileName := none, text := "Flood Risk Map", data := [] }

/-- A second, earlier title field with a different text. -/
def exTitleFieldB : Field :=
  { name := some "title", fileName := none, text := "Cyclone", data := [] }

/-- File field of the spec's scenario: file name `map.tif`, bytes
`[1, 2, 3]`. -/
def exFileField : Field :=
  { name := some "file", fileName := some "map.tif", text := "", data := [1, 2, 3] }

/-- A second file field with a different file name and payload. -/
def exFileFieldB : Field :=
  { name := some "file", fileName := some "old.tif", text := "", data := [9] }

/-- A field that is neither a title nor carries a file name. -/
def exOtherField : Field :=
  { name := some "comment", fileName := none, text := "hi", data := [] }

/-- The record the scenario upload creates when the random draw is 0. -/
def exRecord0 : SMap :=
  { uuid := newV4String 0, title := "Flood Risk Map", path := "/tmp/map.tif" }

/-- A pre-existing record for exercising a non-empty store. -/
def exRecord1 : SMap :=
  { uuid := "a", title := "b", path := "c" }

/-- Modelled from the spec: the five error kinds the error-handling
design declares in section 7 (Conflict, NotFound, Unauthorized,
MalformedUpload, WriteFailed). -/
inductive ErrorKind where
  | conflict
  | notFound
  | unauthorized
  | malformedUpload
  | writeFailed
  deriving DecidableEq, Repr

/-- The kind a value of the code's `SMapError` enum carries. -/
def SMapError.kind : SMapError → ErrorKind
  | .Conflict _ => .conflict
  | .NotFound _ => .notFound
  | .Unauthorized _ => .unauthorized

/-- A declared error kind is representable when some value of the
shared error type carries it. -/
def RepresentsKind (k : ErrorKind) : Prop :=
  ∃ e : SMapError, e.kind = k

/-- Modelled from the spec: the Map Registry append operation
(section 4.1: `append(record)` adds a record to the end of the ordered
collection, serialized by the store mutex). The upload handler in the
code performs no append at all, so this operation follows the spec's
words. -/
def Store.append (store : Store) (r : SMap) : Store := store ++ [r]

/-- The identifier a finished upload request reports, when it
succeeded. -/
def uuidOfResult (res : Except Panic (SMap × List (String × Bytes))) : Option String :=
  match res with
  | .error _ => none
  | .ok x => some x.1.uuid

/-- Whether the loop treats a field as the title (its name equals
`title`). -/
def isTitleField (f : Field) : Bool := f.name = some "title"

/-- The fields the loop treats as file payloads: every non-title field,
since the code checks only the name before unwrapping the file name. -/
def fileFields (fields : List Field) : List Field :=
  fields.filter (fun f => ! isTitleField f)

/-- Texts of the title fields, in arrival order. -/
def titleTexts (fields : List Field) : List String :=
  (fields.filter isTitleField).map Field.text

/-- The write events the file fields produce, in arrival order: each
non-title field is written to `/tmp/` followed by its file name. -/
def fileWrites (fields : List Field) : List (String × Bytes) :=
  (fileFields fields).map (fun f => ("/tmp/" ++ f.fileName.getD "", f.data))

/-- Paths of the file writes, in arrival order. -/
def filePaths (fields : List Field) : List String :=
  (fileWrites fields).map Prod.fst

/-- Last element of a list, falling back to `d` when the list is
empty: the value an option variable holds after a loop overwrote it
once per list element. -/
def lastOr : List α → Option α → Option α
  | [], d => d
  | x :: l, _ => lastOr l (some x)

theorem lastOr_eq_getLast? (l : List α) (x : α) (d : Option α) :
    lastOr (x :: l) d = (x :: l).getLast? := by
  induction l generalizing x d with
  | nil => rfl
  | cons y t ih =>
    calc lastOr (x :: y :: t) d = lastOr (y :: t) (some x) := rfl
    _ = (y :: t).getLast? := ih y (some x)
    _ = (x :: y :: t).getLast? := (List.getLast?_cons_cons).symm

theorem titleTexts_cons_title (f : Field) (rest : List Field)
    (h : isTitleField f = true) :
    titleTexts (f :: rest) = f.text :: titleTexts rest := by
  simp [titleTexts, List.filter_cons, h]

theorem titleTexts_cons_other (f : Field) (rest : List Field)
    (h : isTitleField f = false) :
    titleTexts (f :: rest) = titleTexts rest := by
  simp [titleTexts, List.filter_cons, h]

theorem fileFields_cons_title (f : Field) (rest : List Field)
    (h : isTitleField f = true) :
    fileFields (f :: rest) = fileFields rest := by
  simp [fileFields, List.filter_cons, h]

theorem fileFields_cons_other (f : Field) (rest : List Field)
    (h : isTitleField f = false) :
    fileFields (f :: rest) = f :: fileFields rest := by
  simp [fileFields, List.filter_cons, h]

theorem fileWrites_cons_title (f : Field) (rest : List Field)
    (h : isTitleField f = true) :
    fileWrites (f :: rest) = fileWrites rest := by
  rw [fileWrites, fileFields_cons_title f rest h, fileWrites]

theorem fileWrites_cons_other (f : Field) (rest : List Field) (fn : String)
    (h : isTitleField f = false) (hfn : f.fileName = some fn) :
    fileWrites (f :: rest) = ("/tmp/" ++ fn, f.data) :: fileWrites rest := by
  rw [fileWrites, fileFields_cons_other f rest h, List.map_cons, hfn]
  rfl

theorem filePaths_cons_title (f : Field) (rest : List Field)
    (h : isTitleField f = true) :
    filePaths (f :: rest) = filePaths rest := by
  rw [filePaths, fileWrites_cons_title f rest h, filePaths]

theorem filePaths_cons_other (f : Field) (rest : List Field) (fn : String)
    (h : isTitleField f = false) (hfn : f.fileName = some fn) :
    filePaths (f :: rest) = ("/tmp/" ++ fn) :: filePaths rest := by
  rw [filePaths, fileWrites_cons_other f rest fn h hfn, List.map_cons, filePaths]

/-- Invariant of the field loop: on normal termination the title is the
last title text seen (or the initial one), the path is the last file
path seen (or the initial one), and the write events are the initial
ones followed by one write per file field, in order. -/
theorem processFields_ok (fields : List Field) (st0 st : IngestState)
    (h : processFields fields st0 = .ok st) :
    st.title = lastOr (titleTexts fields) st0.title ∧
    st.path = lastOr (filePaths fields) st0.path ∧
    st.writes = st0.writes ++ fileWrites fields := by
  induction fields generalizing st0 with
  | nil =>
    simp only [processFields, Except.ok.injEq] at h
    subst h
    simp [titleTexts, filePaths, fileWrites, fileFields, lastOr]
  | cons f rest ih =>
    cases hn : f.name with
    | none => simp [processFields, processField, hn] at h
    | some n =>
      by_cases hT : n = "title"
      · subst hT
        have hft : isTitleField f = true := by simp [isTitleField, hn]
        have h1 : processFields rest { st0 with title := some f.text } = .ok st := by
          simpa [processFields, processField, hn] using h
        obtain ⟨e1, e2, e3⟩ := ih _ h1
        refine ⟨?_, ?_, ?_⟩
        · rw [e1, titleTexts_cons_title f rest hft]
          rfl
        · rw [e2, filePaths_cons_title f rest hft]
        · rw [e3, fileWrites_cons_title f rest hft]
      · cases hfn : f.fileName with
        | none => simp [processFields, processField, hn, hT, hfn] at h
        | some fn =>
          have hff : isTitleField f = false := by
            simp [isTitleField, hn, hT]
          have h1 : processFields rest
              { st0 with path := some ("/tmp/" ++ fn),
                         writes := st0.writes ++ [("/tmp/" ++ fn, f.data)] } = .ok st := by
            simpa [processFields, processField, hn, hT, hfn] using h
          obtain ⟨e1, e2, e3⟩ := ih _ h1
          refine ⟨?_, ?_, ?_⟩
          · rw [e1, titleTexts_cons_other f rest hff]
          · rw [e2, filePaths_cons_other f rest fn hff hfn]
            rfl
          · rw [e3, fileWrites_cons_other f rest fn hff hfn, List.append_assoc]
            rfl

/-- Splitting the field loop at a list append. -/
theorem processFields_append (a b : List Field) (st : IngestState) :
    processFields (a ++ b) st =
      match processFields a st with
      | .error p => .error p
      | .ok st1 => processFields b st1 := by
  induction a generalizing st with
  | nil => rfl
  | cons f rest ih =>
    show processFields (f :: (rest ++ b)) st = _
    cases hpf : processField st f with
    | error p => simp [processFields, hpf]
    | ok st1 => simp [processFields, hpf, ih]

/-- Elimination form of a successful upload: the loop terminated
normally in a state whose title, path and writes the response
reflects, and the record's uuid is the pre-drawn one. -/
theorem upload_ok_elim (u : String) (fields : List Field) (r : SMap)
    (w : List (String × Bytes))
    (h : upload_smap_multipart u fields = .ok (r, w)) :
    ∃ st, processFields fields { title := none, path := none, writes := [] } = .ok st ∧
      st.title = some r.title ∧ st.path = some r.path ∧
      st.writes = w ∧ r.uuid = u := by
  unfold upload_smap_multipart at h
  cases hpf : processFields fields { title := none, path := none, writes := [] } with
  | error p => rw [hpf] at h; exact absurd h (by simp)
  | ok st =>
    rw [hpf] at h
    dsimp only at h
    cases hts : st.title with
    | none => rw [hts] at h; exact absurd h (by simp)
    | some t =>
      rw [hts] at h
      dsimp only at h
      cases htp : st.path with
      | none => rw [htp] at h; exact absurd h (by simp)
      | some p =>
        rw [htp] at h
        dsimp only at h
        simp only [Except.ok.injEq, Prod.mk.injEq] at h
        obtain ⟨hr, hw⟩ := h
        subst hr hw
        exact ⟨st, rfl, by rw [hts], by rw [htp], rfl, rfl⟩

theorem hexChar_injOn : ∀ a < 16, ∀ b < 16, hexChar a = hexChar b → a = b := by
  decide

theorem hexChar_ne_dash : ∀ a < 16, hexChar a ≠ '-' := by
  decide

theorem map_hexChar_inj (l1 l2 : List Nat)
    (h1 : ∀ x ∈ l1, x < 16) (h2 : ∀ x ∈ l2, x < 16)
    (h : l1.map hexChar = l2.map hexChar) : l1 = l2 := by
  induction l1 generalizing l2 with
  | nil => cases l2 with
    | nil => rfl
    | cons y t => simp at h
  | cons x s ih =>
    cases l2 with
    | nil => simp at h
    | cons y t =>
      simp only [List.map_cons, List.cons.injEq] at h
      have hx := h1 x (List.mem_cons_self x s)
      have hy := h2 y (List.mem_cons_self y t)
      have hxy := hexChar_injOn x hx y hy h.1
      have ht := ih t (fun z hz => h1 z (List.mem_cons_of_mem x hz))
        (fun z hz => h2 z (List.mem_cons_of_mem y hz)) h.2
      rw [hxy, ht]

theorem filter_hyphenate (cs : List Char) (hc : ∀ c ∈ cs, c ≠ '-') :
    (hyphenate cs).filter (fun c => c ≠ '-') = cs := by
  have hseg : ∀ l : List Char, l ⊆ cs → l.filter (fun c => c ≠ '-') = l := by
    intro l hl
    refine List.filter_eq_self.mpr (fun a ha => ?_)
    simpa using hc a (hl ha)
  have hdash : ∀ l : List Char,
      ('-' :: l).filter (fun c => c ≠ '-') = l.filter (fun c => c ≠ '-') :=
    fun l => List.filter_cons_of_neg (by simp)
  unfold hyphenate
  rw [List.filter_append, hdash,
    List.filter_append, hdash,
    List.filter_append, hdash,
    List.filter_append, hdash]
  rw [hseg (cs.take 8) (List.take_subset 8 cs),
    hseg ((cs.drop 8).take 4) (fun a ha =>
      List.drop_subset 8 cs (List.take_subset 4 (cs.drop 8) ha)),
    hseg (((cs.drop 8).drop 4).take 4) (fun a ha =>
      List.drop_subset 8 cs (List.drop_subset 4 (cs.drop 8)
        (List.take_subset 4 ((cs.drop 8).drop 4) ha))),
    hseg ((((cs.drop 8).drop 4).drop 4).take 4) (fun a ha =>
      List.drop_subset 8 cs (List.drop_subset 4 (cs.drop 8)
        (List.drop_subset 4 ((cs.drop 8).drop 4)
          (List.take_subset 4 (((cs.drop 8).drop 4).drop 4) ha)))),
    hseg ((((cs.drop 8).drop 4).drop 4).drop 4) (fun a ha =>
      List.drop_subset 8 cs (List.drop_subset 4 (cs.drop 8)
        (List.drop_subset 4 ((cs.drop 8).drop 4)
          (List.drop_subset 4 (((cs.drop 8).drop 4).drop 4) ha))))]
  rw [List.take_append_drop 4 (((cs.drop 8).drop 4).drop 4),
    List.take_append_drop 4 ((cs.drop 8).drop 4),
    List.take_append_drop 4 (cs.drop 8),
    List.take_append_drop 8 cs]

theorem uuidRender_inj (m1 m2 : List Nat)
    (h1 : ∀ x ∈ m1, x < 16) (h2 : ∀ x ∈ m2, x < 16)
    (h : uuidRender m1 = uuidRender m2) : m1 = m2 := by
  have hchars : hyphenate (m1.map hexChar) = hyphenate (m2.map hexChar) := by
    have := congrArg String.data h
    simpa [uuidRender] using this
  have hmap : m1.map hexChar = m2.map hexChar := by
    have hf := congrArg (List.filter (fun c => c ≠ '-')) hchars
    rwa [filter_hyphenate (m1.map hexChar) (by
        intro c hcmem
        obtain ⟨x, hx, rfl⟩ := List.mem_map.mp hcmem
        exact hexChar_ne_dash x (h1 x hx)),
      filter_hyphenate (m2.map hexChar) (by
        intro c hcmem
        obtain ⟨x, hx, rfl⟩ := List.mem_map.mp hcmem
        exact hexChar_ne_dash x (h2 x hx))] at hf
  exact map_hexChar_inj m1 m2 h1 h2 hmap

theorem toNibbles_lt (r : Nat) : ∀ x ∈ toNibbles r, x < 16 := by
  intro x hx
  obtain ⟨i, _, rfl⟩ := List.mem_map.mp hx
  exact Nat.mod_lt _ (by norm_num)

theorem uuidV4Nibbles_lt (r : Nat) : ∀ x ∈ uuidV4Nibbles r, x < 16 := by
  intro x hx
  unfold uuidV4Nibbles at hx
  rcases List.mem_or_eq_of_mem_set hx with hx1 | hx1
  · rcases List.mem_or_eq_of_mem_set hx1 with hx2 | hx2
    · exact toNibbles_lt r x hx2
    · omega
  · have : (toNibbles r).getD 16 0 % 4 < 4 := Nat.mod_lt _ (by norm_num)
    omega

theorem uuidV4Nibbles_length (r : Nat) : (uuidV4Nibbles r).length = 32 := by
  simp [uuidV4Nibbles, toNibbles]

theorem hyphenate_length (cs : List Char) (h : cs.length = 32) :
    (hyphenate cs).length = 36 := by
  simp [hyphenate, h]

theorem newV4String_length (r : Nat) : (newV4String r).length = 36 := by
  have h32 : ((uuidV4Nibbles r).map hexChar).length = 32 := by
    simp [uuidV4Nibbles_length]
  show (String.mk (hyphenate ((uuidV4Nibbles r).map hexChar))).length = 36
  show (hyphenate ((uuidV4Nibbles r).map hexChar)).length = 36
  exact hyphenate_length _ h32

/-- C1: evaluated at the spec's scenario (title `Flood Risk Map`, file
`map.tif` with bytes 1,2,3, empty registry). The upload succeeds and
the created record is returned, but the handler never appends to the
Map Registry — it has no access to the store — so the subsequent
GET /smap snapshot is still the empty list and does not include the
record, contrary to the claim. -/
theorem C1_no_append_eval :
    upload_smap_multipart (newV4String 0) [exTitleField, exFileField] =
      .ok (exRecord0, [("/tmp/map.tif", [1, 2, 3])]) ∧
    list_smaps (handleUpload [] (newV4String 0) [exTitleField, exFileField]).1 = [] ∧
    exRecord0 ∉ list_smaps (handleUpload [] (newV4String 0) [exTitleField, exFileField]).1 :=
  ⟨rfl, rfl, by simp [handleUpload, list_smaps]⟩

/-- C2: a multipart body missing the file (only a title field) or
missing the title (only a file field) makes ingestion panic on an
unwrap of `None` instead of returning a structured `SMapError`; no
record is committed either way. -/
theorem C2_missing_field_panics :
    upload_smap_multipart (newV4String 0) [exTitleField] = .error .unwrapNone ∧
    upload_smap_multipart (newV4String 0) [exFileField] = .error .unwrapNone ∧
    (handleUpload [exRecord1] (newV4String 0) [exTitleField]).1 = [exRecord1] :=
  ⟨rfl, rfl, rfl⟩

/-- C3 counterexample: adding a field that is neither a title nor
carries a file name (name `comment`, no file name) to an otherwise
valid body turns a successful ingestion into a panic — the field is
not ignored and does affect the outcome. -/
theorem C3_extra_field_not_ignored_cex :
    upload_smap_multipart (newV4String 0) [exTitleField, exFileField, exOtherField] =
      .error .unwrapNone ∧
    upload_smap_multipart (newV4String 0) [exTitleField, exFileField] =
      .ok (exRecord0, [("/tmp/map.tif", [1, 2, 3])]) :=
  ⟨rfl, rfl⟩

/-- C3 amended: a multipart field whose name is not `title` and which
carries no attached file name is never ignored — whenever the loop
reaches it, ingestion fails with the unwrap panic. -/
theorem C3_nonTitle_noFileName_panics (u : String) (pre post : List Field)
    (f : Field) (n : String) (st : IngestState)
    (hpre : processFields pre { title := none, path := none, writes := [] } = .ok st)
    (hn : f.name = some n) (hnt : n ≠ "title") (hfn : f.fileName = none) :
    upload_smap_multipart u (pre ++ f :: post) = .error .unwrapNone := by
  have hf : processField st f = .error .unwrapNone := by
    simp [processField, hn, hnt, hfn]
  have hall : processFields (pre ++ f :: post)
      { title := none, path := none, writes := [] } = .error .unwrapNone := by
    rw [processFields_append, hpre]
    show processFields (f :: post) st = .error .unwrapNone
    simp [processFields, hf]
  simp [upload_smap_multipart, hall]

/-- C3 witness: the amended statement at the concrete body
title-field, file-field, comment-field. -/
theorem C3_nonTitle_noFileName_witness :
    upload_smap_multipart "u" ([exTitleField, exFileField] ++ exOtherField :: []) =
      .error .unwrapNone :=
  C3_nonTitle_noFileName_panics "u" [exTitleField, exFileField] [] exOtherField
    "comment"
    { title := some "Flood Risk Map", path := some "/tmp/map.tif",
      writes := [("/tmp/map.tif", [1, 2, 3])] }
    rfl rfl (by decide) rfl

/-- C4 counterexample: the declared kinds MalformedUpload and
WriteFailed are not representable by any value of the code's shared
error type `SMapError`, so the type does not represent all five
declared kinds. -/
theorem C4_missing_kinds_cex :
    ¬ RepresentsKind ErrorKind.malformedUpload ∧
    ¬ RepresentsKind ErrorKind.writeFailed := by
  refine ⟨?_, ?_⟩ <;>
    (rintro ⟨e, he⟩; cases e <;> simp [SMapError.kind] at he)

/-- C4 amended: the shared error type represents exactly three of the
five declared kinds — every `SMapError` value carries Conflict,
NotFound or Unauthorized, and each of those three is representable. -/
theorem C4_three_kinds_only (e : SMapError) :
    e.kind ∈ [ErrorKind.conflict, ErrorKind.notFound, ErrorKind.unauthorized] ∧
    RepresentsKind ErrorKind.conflict ∧ RepresentsKind ErrorKind.notFound ∧
    RepresentsKind ErrorKind.unauthorized := by
  refine ⟨?_, ⟨SMapError.Conflict "", rfl⟩, ⟨SMapError.NotFound "", rfl⟩,
    ⟨SMapError.Unauthorized "", rfl⟩⟩
  cases e <;> simp [SMapError.kind]

/-- C5: evaluation of the body-limit middleware stack of `main`. The
`disable()` layer is added before `max(1024)`, so it is innermost and
its extension insertion overwrites the cap; the extractor reads
`disable` and accepts a 2048-byte body even though 2048 exceeds
1024. -/
theorem C5_cap_overwritten_eval :
    requestLimitExtension bodyLimitLayers = some DefaultBodyLimitKind.disable ∧
    bodyAccepted (requestLimitExtension bodyLimitLayers) 2048 = true ∧
    1024 < 2048 :=
  ⟨rfl, rfl, by norm_num⟩

/-- C6: an ingestion attempt that fails leaves the Map Registry
exactly as it was — the handler returns the store unchanged and a
snapshot after the attempt equals the snapshot before it. -/
theorem C6_failed_ingestion_preserves_registry (store : Store) (u : String)
    (fields : List Field) (p : Panic)
    (hfail : (handleUpload store u fields).2 = .error p) :
    (handleUpload store u fields).1 = store ∧
    list_smaps (handleUpload store u fields).1 = list_smaps store :=
  ⟨rfl, rfl⟩

/-- C6 witness: a title-only upload against a one-record registry
fails and leaves the registry unchanged. -/
theorem C6_failed_ingestion_witness :
    (handleUpload [exRecord1] "u" [exTitleField]).1 = [exRecord1] ∧
    list_smaps (handleUpload [exRecord1] "u" [exTitleField]).1 =
      list_smaps [exRecord1] :=
  C6_failed_ingestion_preserves_registry [exRecord1] "u" [exTitleField]
    .unwrapNone rfl

/-- C7: after a sequence of successful appends A1..An to any starting
store, the snapshot `list_smaps` returns all registered records with
the appended ones at the end in exactly their append order. -/
theorem C7_snapshot_insertion_order (store : Store) (records : List SMap) :
    list_smaps (records.foldl Store.append store) = store ++ records := by
  induction records generalizing store with
  | nil => simp [list_smaps]
  | cons r rest ih =>
    show list_smaps (rest.foldl Store.append (Store.append store r)) = _
    rw [ih (Store.append store r)]
    simp [Store.append]

/-- C8 counterexample: identifiers are not unconditionally pairwise
distinct — when the 128-bit random draw repeats (here 0 twice), two
distinct successful ingestions return the same identifier. -/
theorem C8_repeated_draw_cex :
    uuidOfResult (upload_smap_multipart (newV4String 0) [exTitleField, exFileField]) =
      some (newV4String 0) ∧
    uuidOfResult (upload_smap_multipart (newV4String 0) [exTitleFieldB, exFileFieldB]) =
      some (newV4String 0) :=
  ⟨rfl, rfl⟩

/-- C8 amended: the returned record carries exactly the identifier
drawn before the fields are processed; the identifier is the
36-character rendering of the 128-bit value; and identifiers from two
draws are distinct whenever the version-and-variant-masked draws
differ. -/
theorem C8_uuid_amended (u : String) (fields : List Field) (r : SMap)
    (w : List (String × Bytes)) (r1 r2 : Nat)
    (hok : upload_smap_multipart u fields = .ok (r, w))
    (hne : uuidV4Nibbles r1 ≠ uuidV4Nibbles r2) :
    r.uuid = u ∧ (newV4String r1).length = 36 ∧
    newV4String r1 ≠ newV4String r2 := by
  obtain ⟨st, _, _, _, _, hu⟩ := upload_ok_elim u fields r w hok
  refine ⟨hu, newV4String_length r1, fun heq => ?_⟩
  exact hne (uuidRender_inj _ _ (uuidV4Nibbles_lt r1) (uuidV4Nibbles_lt r2) heq)

/-- C8 witness: the amended statement at the scenario body with the
draws 0 and 1. -/
theorem C8_uuid_amended_witness :
    exRecord0.uuid = newV4String 0 ∧ (newV4String 0).length = 36 ∧
    newV4String 0 ≠ newV4String 1 :=
  C8_uuid_amended (newV4String 0) [exTitleField, exFileField] exRecord0
    [("/tmp/map.tif", [1, 2, 3])] 0 1 rfl (by decide)

/-- C9: when the body supplies the title field more than once and
ingestion succeeds, the record's title is the text of the last title
occurrence. -/
theorem C9_last_title_wins (u : String) (fields : List Field) (r : SMap)
    (w : List (String × Bytes))
    (hok : upload_smap_multipart u fields = .ok (r, w))
    (hmulti : 1 < (titleTexts fields).length) :
    (titleTexts fields).getLast? = some r.title := by
  obtain ⟨st, hpf, ht, _, _, _⟩ := upload_ok_elim u fields r w hok
  obtain ⟨e1, _, _⟩ := processFields_ok fields _ st hpf
  cases hTT : titleTexts fields with
  | nil => rw [hTT] at hmulti; simp at hmulti
  | cons x l =>
    rw [hTT] at e1
    rw [lastOr_eq_getLast?] at e1
    rw [← e1]
    exact ht

/-- C9 witness: a body with the titles `Cyclone` then `Flood Risk Map`
and a file field ingests with the last title. -/
theorem C9_last_title_wins_witness :
    (titleTexts [exTitleFieldB, exTitleField, exFileField]).getLast? =
      some "Flood Risk Map" := by
  have h := C9_last_title_wins (newV4String 0)
    [exTitleFieldB, exTitleField, exFileField] exRecord0
    [("/tmp/map.tif", [1, 2, 3])] rfl (by decide)
  exact h

/-- C10: when the body carries more than one file-named field and
ingestion succeeds, every such field's bytes are written to
`/tmp/<file_name>` in arrival order, and the record's location is the
path of the last one. -/
theorem C10_last_file_wins (u : String) (fields : List Field) (r : SMap)
    (w : List (String × Bytes))
    (hok : upload_smap_multipart u fields = .ok (r, w))
    (hmulti : 1 < (fileFields fields).length) :
    w = fileWrites fields ∧ (filePaths fields).getLast? = some r.path := by
  obtain ⟨st, hpf, _, hp, hw, _⟩ := upload_ok_elim u fields r w hok
  obtain ⟨_, e2, e3⟩ := processFields_ok fields _ st hpf
  constructor
  · rw [← hw, e3]
    rfl
  · cases hFP : filePaths fields with
    | nil =>
      have hlen : (filePaths fields).length = (fileFields fields).length := by
        simp [filePaths, fileWrites]
      rw [hFP] at hlen
      simp at hlen
      omega
    | cons x l =>
      rw [hFP] at e2
      rw [lastOr_eq_getLast?] at e2
      rw [← e2]
      exact hp

/-- C10 witness: a body with file fields `old.tif` then `map.tif`
writes both files in order and the record points at the last path. -/
theorem C10_last_file_wins_witness :
    [("/tmp/old.tif", [9]), ("/tmp/map.tif", [1, 2, 3])] =
      fileWrites [exTitleField, exFileFieldB, exFileField] ∧
    (filePaths [exTitleField, exFileFieldB, exFileField]).getLast? =
      some "/tmp/map.tif" := by
  have h := C10_last_file_wins (newV4String 0)
    [exTitleField, exFileFieldB, exFileField] exRecord0
    [("/tmp/old.tif", [9]), ("/tmp/map.tif", [1, 2, 3])] rfl (by decide)
  exact h

end Smu
